import Mathlib

/-!
Shallow embedding of `ds.py`, an interactive chat client: configuration
loading/validation (`ConfigManager._validate_config`, `_safe_load_config`),
transcript persistence (`save_data`, `save_messages`), the exit-path
lifecycle handlers (`handle_exit`, `exception_hook`, the `atexit`
finalizer), the startup portion of `main`, and the streamed-turn loop.
Python dicts become association lists, files become an explicit `FS`
record, and the streamed chunk loop becomes a fold over a chunk list.
-/

namespace DS

/-- A configuration value as `ast.literal_eval` can produce it for the
keys this program uses: strings, booleans, numbers (modelled as `ℚ`). -/
inductive Val where
  | str (s : String)
  | bool (b : Bool)
  | num (q : ℚ)
deriving Repr, DecidableEq

/-- Python truthiness of a `Val`, as used in `if self.config.get(...)`. -/
def Val.truthy : Val → Bool
  | .str s => !(s == "")
  | .bool b => b
  | .num q => !(q == 0)

/-- The parsed configuration dict (`self.config`): an ordered association
list, first binding wins on lookup, as for a Python dict. -/
abbrev Config := List (String × Val)

/-- `d[k]` lookup returning `none` when the key is absent. -/
def getKey (c : Config) (k : String) : Option Val :=
  c.lookup k

/-- Python `d[k] = v`: replace in place when the key is present
(keeping its position, as a dict does), else append at the end. -/
def setKey : Config → String → Val → Config
  | [], k, v => [(k, v)]
  | (k', v') :: rest, k, v =>
    if k' == k then (k, v) :: rest else (k', v') :: setKey rest k v

/-- `self.config.get(k, dflt)` used as a boolean condition. -/
def cfgTruthy (c : Config) (k : String) (dflt : Bool) : Bool :=
  match getKey c k with
  | some v => v.truthy
  | none => dflt

/-- One transcript entry: `{"role": ..., "content": ...}`. -/
structure Message where
  role : String
  content : String
deriving Repr, DecidableEq

/-- The mutable fields of the single `ConfigManager` instance. -/
structure MState where
  config : Config
  messages : List Message
  saved : Bool
deriving Repr, DecidableEq

/-- `ConfigManager.save_data`: writes `self.messages` to the latest file
only when the saved flag is still clear and `config.get('memory', True)`
is truthy; the flag is set unconditionally afterwards (line 82 of the
source sits outside the `if`).  Returns the new state, the latest-file
content (`some` only when a write happened this call, carrying the full
message list written), and whether a physical write occurred. -/
def save_data (st : MState) : MState × Option (List Message) × Bool :=
  if !st.saved && cfgTruthy st.config "memory" true then
    ({ st with saved := true }, some st.messages, true)
  else
    ({ st with saved := true }, none, false)

/-- `ConfigManager.save_messages`: archive filename from the date and the
first 32 characters of the first message (the Python `None` placeholder
renders as `"None"` inside the f-string when the transcript is empty),
write the whole transcript there, clear the in-memory transcript.
Returns (new state, archive filename, archive content). -/
def save_messages (st : MState) (current_date : String) :
    MState × String × List Message :=
  let first_message : String :=
    match st.messages with
    | [] => "None"
    | m :: _ => m.content.take 32
  let new_file_name := current_date ++ "_" ++ first_message ++ ".json"
  ({ st with messages := [] }, new_file_name, st.messages)

/-- Iterate `save_data` `n` times from a state, threading the latest-file
content (`latest`) and counting physical writes. -/
def iterSave : Nat → MState × Option (List Message) × Nat →
    MState × Option (List Message) × Nat
  | 0, acc => acc
  | n + 1, (st, latest, w) =>
    let r := save_data st
    iterSave n (r.1, (if r.2.2 then r.2.1 else latest),
      w + (if r.2.2 then 1 else 0))

lemma save_data_saved (st : MState) : (save_data st).1.saved = true := by
  unfold save_data
  split <;> rfl

lemma save_data_of_saved (st : MState) (h : st.saved = true) :
    save_data st = (st, none, false) := by
  cases st with
  | mk c m s =>
    simp only at h
    subst h
    rfl

lemma iterSave_of_saved (n : Nat) (st : MState) (latest : Option (List Message))
    (w : Nat) (h : st.saved = true) :
    iterSave n (st, latest, w) = (st, latest, w) := by
  induction n with
  | zero => rfl
  | succ k ih =>
    show iterSave (k + 1) (st, latest, w) = (st, latest, w)
    unfold iterSave
    rw [save_data_of_saved st h]
    simpa using ih

/-! ## Configuration loading (`_safe_load_config`, `_validate_config`) -/

/-- The result of `ast.literal_eval` on the right-hand side of the
`DATABASE` assignment: either a dict (the only shape that survives the
later `in` membership test and `config['stream'] = True` assignment) or
some other literal, which ends in a `TypeError`/`AttributeError` caught
by `_validate_config`'s `except` clause. -/
inductive PyLit where
  | dict (d : Config)
  | nonDict
deriving Repr, DecidableEq

/-- One top-level statement of the parsed `settings.py`, at the
granularity `_safe_load_config` inspects: a single-target name
assignment whose value `ast.literal_eval` accepts (`some lit`) or
rejects (`none`), or any other statement shape, which the loop skips. -/
inductive Stmt where
  | assign1 (name : String) (rhs : Option PyLit)
  | other
deriving Repr, DecidableEq

/-- The settings file on disk: `none` when the file does not exist;
`some none` when `ast.parse` fails on its text; `some (some stmts)`
when it parses to the statement list `stmts`. -/
abbrev SettingsFile := Option (Option (List Stmt))

/-- `ConfigManager._safe_load_config`'s scan: return the literal value of
the first single-target assignment to `DATABASE`; raise (here `.error`)
when its value is not a literal or when no such assignment exists
("未找到 DATABASE 配置"). -/
def safe_load_config : List Stmt → Except Unit PyLit
  | [] => .error ()
  | .assign1 name rhs :: rest =>
    if name == "DATABASE" then
      match rhs with
      | some lit => .ok lit
      | none => .error ()
    else safe_load_config rest
  | .other :: rest => safe_load_config rest

/-- The three fatal startup exits of `_validate_config`, carrying the
data interpolated into the printed message (the incomplete case names
the missing keys, line 34 of the source). -/
inductive StartupError where
  | configMissing
  | configParseError
  | configIncomplete (missing : List String)
deriving Repr, DecidableEq

/-- `required_keys` of `_validate_config`. -/
def requiredKeys : List String :=
  ["api_key", "base_url", "model", "temperature", "memory"]

/-- `ConfigManager._validate_config`: exit when the file is absent; parse
it without executing code; exit naming the missing required keys when
any is absent (`sys.exit` raises `SystemExit`, which the
`except Exception` clause does not catch); on success set
`config['stream'] = True`.  Every failure raised inside the `try`
(parse error, non-literal value, no `DATABASE` binding, non-dict value)
is caught and becomes the parse-failure exit. -/
def validate_config (file : SettingsFile) : Except StartupError Config :=
  match file with
  | none => .error .configMissing
  | some none => .error .configParseError
  | some (some stmts) =>
    match safe_load_config stmts with
    | .error _ => .error .configParseError
    | .ok .nonDict => .error .configParseError
    | .ok (.dict d) =>
      let missing := requiredKeys.filter (fun k => (getKey d k).isNone)
      if missing.isEmpty then .ok (setKey d "stream" (.bool true))
      else .error (.configIncomplete missing)

/-! ## Exit-path lifecycle (`handle_exit`, `exception_hook`, `atexit`) -/

/-- Process-local view the exit handlers act on: the manager state, the
current latest-file content, and a count of physical latest-file writes. -/
structure ProcState where
  st : MState
  latestFile : Option (List Message)
  writes : Nat
deriving Repr, DecidableEq

/-- One call to `manager.save_data` from an exit path, threading the
latest-file content and the physical-write count. -/
def doSave (p : ProcState) : ProcState :=
  let r := save_data p.st
  { st := r.1,
    latestFile := if r.2.2 then r.2.1 else p.latestFile,
    writes := p.writes + (if r.2.2 then 1 else 0) }

/-- `handle_exit` (SIGINT/SIGTERM handler): `manager.save_data()` then
`sys.exit(0)`.  Returns the state after the save and the exit status. -/
def handle_exit (p : ProcState) : ProcState × Nat :=
  (doSave p, 0)

/-- `exception_hook` (installed as `sys.excepthook`): `manager.save_data()`,
forward the exception info unchanged to `sys.__excepthook__`, then
`sys.exit(1)`.  Returns the state after the save, what was forwarded to
the default hook, and the exit status. -/
def exception_hook (exc : String) (p : ProcState) : ProcState × String × Nat :=
  (doSave p, exc, 1)

/-- The `atexit.register(manager.save_data)` finalizer: one more
`save_data` call when the interpreter exits normally. -/
def atexit_finalizer (p : ProcState) : ProcState :=
  doSave p

/-! ## Startup (`ConfigManager()` at module level, then `main` up to the
chat loop) -/

/-- The files the program touches: `settings.py`, `latest.json`
(`none` = absent, `some msgs` = parsed content), and the archive files. -/
structure FS where
  settings : SettingsFile
  latest : Option (List Message)
  archives : List (String × List Message)
deriving Repr, DecidableEq

/-- The parsed CLI arguments.  `-n`, `-b`, `-r`, `-m`, `-s`, `-d` use
`action='store_true'`, so they are always booleans (defaulting to
`false`); `-k` is an optional string; `-t` defaults to `0.7`. -/
structure Args where
  new : Bool
  key : Option String
  beta : Bool
  reasoner : Bool
  memory : Bool
  status : Bool
  temperature : ℚ
  no_stream : Bool
deriving Repr, DecidableEq

/-- All-defaults arguments (no flag passed on the command line). -/
def Args.default : Args :=
  { new := false, key := none, beta := false, reasoner := false,
    memory := false, status := false, temperature := 7/10, no_stream := false }

/-- The `default_config` dict written by the `-k` branch of `main`. -/
def defaultConfig (key : String) (temperature : ℚ) : Config :=
  [("api_key", .str key),
   ("base_url", .str "https://api.deepseek.com"),
   ("model", .str "deepseek-chat"),
   ("temperature", .num temperature),
   ("memory", .bool false)]

/-- Lines 114-117 of `main`: apply the CLI flags to the loaded config.
Note `args.memory` comes from `action='store_true'`, so it is always a
Bool and never `None`: the guard `if args.memory is not None:` is always
true and `config['memory']` is overwritten with the flag value on every
run, `False` included. -/
def applyFlags (cfg : Config) (args : Args) : Config :=
  let c1 := if args.beta then
    setKey cfg "base_url" (.str "https://beta.api.deepseek.com/beta") else cfg
  let c2 := if args.reasoner then
    setKey c1 "model" (.str "deepseek-reasoner") else c1
  let c3 := setKey c2 "memory" (.bool args.memory)
  if args.no_stream then setKey c3 "stream" (.bool false) else c3

/-- How the modelled startup segment ends. -/
inductive ExitPath where
  | validationExit (e : StartupError)
  | exceptionExit (code : Nat)
  | mainReturn
  | chatLoop
deriving Repr, DecidableEq

/-- Result of the startup segment: how it ended, the file system after
it, how many physical latest-file writes happened, whether the latest
transcript was read, and the manager state (absent when the process
exited during `ConfigManager()` construction). -/
structure StartOutcome where
  path : ExitPath
  fs : FS
  latestWrites : Nat
  readLatest : Bool
  mstate : Option MState
deriving Repr, DecidableEq

/-- Lines 124-142 of `main` (after the transcript load): the `-k` branch
writes a fresh `settings.py` and returns; then `-n` archives; then `-s`
returns; otherwise the chat loop is entered.  A `return` from `main`
lets the interpreter exit, running the `atexit` finalizer. -/
def afterLoad (st : MState) (fs : FS) (args : Args) (date : String)
    (readL : Bool) : StartOutcome :=
  match args.key with
  | some key =>
    let fs1 := { fs with settings := some (some
      [.assign1 "DATABASE" (some (.dict (defaultConfig key args.temperature)))]) }
    let p := atexit_finalizer { st := st, latestFile := fs1.latest, writes := 0 }
    { path := .mainReturn, fs := { fs1 with latest := p.latestFile },
      latestWrites := p.writes, readLatest := readL, mstate := some p.st }
  | none =>
    let (st1, fs1) :=
      if args.new then
        let r := save_messages st date
        (r.1, { fs with archives := (r.2.1, r.2.2) :: fs.archives })
      else (st, fs)
    if args.status then
      let p := atexit_finalizer { st := st1, latestFile := fs1.latest, writes := 0 }
      { path := .mainReturn, fs := { fs1 with latest := p.latestFile },
        latestWrites := p.writes, readLatest := readL, mstate := some p.st }
    else
      { path := .chatLoop, fs := fs1, latestWrites := 0,
        readLatest := readL, mstate := some st1 }

/-- The whole startup segment: `manager = ConfigManager()` at module
level (a validation failure calls `sys.exit` before any handler is
registered, so nothing is saved and no file is touched), handler
registration, then `main` through flag application, the conditional
transcript load (lines 119-121), and the pre-loop branches.  A missing
`latest.json` under truthy memory raises `FileNotFoundError` out of
`main`; `sys.excepthook` saves and exits 1, after which the `atexit`
finalizer runs one more (no-op) save. -/
def runStartup (fs : FS) (args : Args) (date : String) : StartOutcome :=
  match validate_config fs.settings with
  | .error e =>
    { path := .validationExit e, fs := fs, latestWrites := 0,
      readLatest := false, mstate := none }
  | .ok cfg0 =>
    let cfg1 := applyFlags cfg0 args
    let st1 : MState := { config := cfg1, messages := [], saved := false }
    if cfgTruthy cfg1 "memory" true then
      match fs.latest with
      | none =>
        let p := atexit_finalizer
          (exception_hook "FileNotFoundError" { st := st1, latestFile := fs.latest, writes := 0 }).1
        { path := .exceptionExit (exception_hook "FileNotFoundError" { st := st1, latestFile := fs.latest, writes := 0 }).2.2,
          fs := { fs with latest := p.latestFile },
          latestWrites := p.writes, readLatest := false, mstate := some p.st }
      | some msgs => afterLoad { st1 with messages := msgs } fs args date true
    else afterLoad st1 fs args date false

/-! ## The streamed-turn loop (lines 159-176 of `main`) -/

/-- One stream chunk's delta: `chunk.choices[0].delta.reasoning_content`
and `.content`, each possibly `None` (here `none`). -/
structure Delta where
  reasoning_content : Option String
  content : Option String
deriving Repr, DecidableEq

/-- Python truthiness of an optional string: `None` and `""` are falsy. -/
def truthyStr : Option String → Bool
  | none => false
  | some s => !(s == "")

/-- The per-turn loop state: the two accumulator strings of lines
159-160 plus the console output, as the list of printed pieces in
order (each `print(s)` contributes `s` followed by its end text). -/
structure TurnAcc where
  reasoning_content : String
  content : String
  out : List String
deriving Repr, DecidableEq

/-- The `print("==========Reasoning finished.==========")` line. -/
def markerLine : String := "==========Reasoning finished.==========\n"

/-- The body of `for chunk in response:` (lines 163-174): the reasoning
branch prints the `"Thinking :"` header on the first reasoning fragment
and echoes the fragment; the answer branch prints a newline and the
reasoning-finished marker whenever `reasoning_content == ""` and the
model is `deepseek-reasoner`, then accumulates and echoes the answer
fragment; chunks with neither field truthy are skipped. -/
def process_chunk (model : String) (acc : TurnAcc) (d : Delta) : TurnAcc :=
  if truthyStr d.reasoning_content then
    let frag := d.reasoning_content.getD ""
    let out1 := if acc.reasoning_content == "" then acc.out ++ ["Thinking :"]
      else acc.out
    { reasoning_content := acc.reasoning_content ++ frag,
      content := acc.content,
      out := out1 ++ [frag] }
  else if truthyStr d.content then
    let frag := d.content.getD ""
    let out1 := if acc.reasoning_content == "" && model == "deepseek-reasoner"
      then acc.out ++ ["\n", markerLine]
      else acc.out
    { acc with content := acc.content ++ frag, out := out1 ++ [frag] }
  else acc

/-- The whole chunk loop of a streamed turn, starting from the
`print("DeepSeek> ")` of line 162 and empty accumulators. -/
def run_stream (model : String) (chunks : List Delta) : TurnAcc :=
  chunks.foldl (process_chunk model)
    { reasoning_content := "", content := "", out := ["DeepSeek> \n"] }

/-- One full streamed turn: append the user message (line 151), consume
the stream, print the final newline (line 175), append the assistant
message built from the accumulated `content` (line 176).  Returns the
transcript after the turn and the final loop state. -/
def streamed_turn (model : String) (msgs : List Message) (user : String)
    (chunks : List Delta) : List Message × TurnAcc :=
  let msgs1 := msgs ++ [{ role := "user", content := user }]
  let acc := run_stream model chunks
  (msgs1 ++ [{ role := "assistant", content := acc.content }],
   { acc with out := acc.out ++ ["\n"] })

/-- The concatenation, in stream order, of the chunks' answer fragments
(a chunk with no `content` field contributes nothing). -/
def answer_concat : List Delta → String
  | [] => ""
  | d :: rest => (d.content.getD "") ++ answer_concat rest

/-- How many times the reasoning-finished marker was printed. -/
def markerCount (acc : TurnAcc) : Nat :=
  (acc.out.filter (· == markerLine)).length

/-! ## Concrete inputs used by witnesses and counterexamples -/

/-- A manager state with memory disabled and nothing saved yet. -/
def stMemOff : MState :=
  { config := [("memory", .bool false)], messages := [], saved := false }

/-- A config whose only key is a truthy `memory`. -/
def cfgMemOnly : Config := [("memory", .bool true)]

/-- A one-message transcript. -/
def msgsOne : List Message := [{ role := "user", content := "m" }]

/-- Scenario A's stream: two answer-only chunks. -/
def chunksHi : List Delta :=
  [{ reasoning_content := none, content := some "Hi" },
   { reasoning_content := none, content := some " there" }]

/-- Scenario B's stream: a reasoning chunk then an answer chunk. -/
def chunksReasonThenAnswer : List Delta :=
  [{ reasoning_content := some "Let me think", content := none },
   { reasoning_content := none, content := some "42" }]

/-- A reasoning-free stream of two answer chunks. -/
def chunksAnswerOnly : List Delta :=
  [{ reasoning_content := none, content := some "4" },
   { reasoning_content := none, content := some "2" }]

/-- A complete, valid configuration dict whose `memory` key is true. -/
def cfgFull : Config :=
  [("api_key", .str "sk"), ("base_url", .str "https://api.deepseek.com"),
   ("model", .str "deepseek-chat"), ("temperature", .num 1),
   ("memory", .bool true)]

/-- A file system with a valid `settings.py` (memory on) and a one-message
`latest.json`. -/
def fsMemTrue : FS :=
  { settings := some (some [.assign1 "DATABASE" (some (.dict cfgFull))]),
    latest := some msgsOne, archives := [] }

/-- A file system with no `settings.py` and no `latest.json` at all. -/
def fsAbsent : FS := { settings := none, latest := none, archives := [] }

/-- A file system with a valid `settings.py` but no `latest.json`. -/
def fsNoLatest : FS :=
  { settings := some (some [.assign1 "DATABASE" (some (.dict cfgFull))]),
    latest := none, archives := [] }

/-- The CLI invocation `-k mykey`. -/
def argsKey : Args := { Args.default with key := some "mykey" }

/-- The CLI invocation `-m`. -/
def argsMem : Args := { Args.default with memory := true }

/-! ## Helper lemmas -/

lemma save_data_first (st : MState) (hsaved : st.saved = false)
    (hmem : cfgTruthy st.config "memory" true = true) :
    save_data st = ({ st with saved := true }, some st.messages, true) := by
  unfold save_data
  rw [hsaved, hmem]
  rfl

lemma doSave_saved (p : ProcState) : (doSave p).st.saved = true :=
  save_data_saved p.st

lemma doSave_of_saved (p : ProcState) (h : p.st.saved = true) : doSave p = p := by
  unfold doSave
  rw [save_data_of_saved p.st h]
  rfl

lemma doSave_writes_le (p : ProcState) : (doSave p).writes ≤ p.writes + 1 := by
  unfold doSave
  dsimp only
  split <;> omega

lemma getKey_setKey_self (c : Config) (k : String) (v : Val) :
    getKey (setKey c k v) k = some v := by
  induction c with
  | nil => simp [setKey, getKey, List.lookup]
  | cons p rest ih =>
    obtain ⟨k', v'⟩ := p
    by_cases h : k' = k
    · subst h
      simp [setKey, getKey, List.lookup]
    · have hb : (k' == k) = false := by simpa using h
      have hb' : (k == k') = false := by
        simp only [beq_eq_false_iff_ne, ne_eq]
        exact fun hkk => h hkk.symm
      simp only [setKey, hb, if_false, getKey, List.lookup, hb']
      exact ih

lemma getKey_setKey_other (c : Config) (k k' : String) (v : Val)
    (h : k' ≠ k) : getKey (setKey c k v) k' = getKey c k' := by
  induction c with
  | nil =>
    have hb : (k' == k) = false := by simpa using h
    simp [setKey, getKey, List.lookup, hb]
  | cons p rest ih =>
    obtain ⟨k0, v0⟩ := p
    by_cases h0 : k0 = k
    · subst h0
      have hb : (k0 == k0) = true := by simp
      have hb' : (k' == k0) = false := by simpa using h
      simp [setKey, getKey, List.lookup, hb']
    · have hb : (k0 == k) = false := by simpa using h0
      simp only [setKey, hb, if_false, getKey, List.lookup]
      cases hkk : k' == k0 with
      | true => rfl
      | false => exact ih

/-! ## Claim theorems -/

/-- C2: calling `save_data` N ≥ 1 times in one process lifetime (the
saved flag still clear, memory enabled) performs exactly one physical
write to the latest file, whose content is the full in-memory transcript
at the time of the first call; every later call is a no-op. -/
theorem saveLatest_n_calls_one_write (st : MState) (n : Nat)
    (hsaved : st.saved = false)
    (hmem : cfgTruthy st.config "memory" true = true)
    (hn : 1 ≤ n) :
    iterSave n (st, none, 0) =
      ({ st with saved := true }, some st.messages, 1) := by
  obtain ⟨m, rfl⟩ : ∃ m, n = m + 1 :=
    ⟨n - 1, (Nat.succ_pred_eq_of_pos hn).symm⟩
  show iterSave (m + 1) (st, none, 0) = _
  unfold iterSave
  rw [save_data_first st hsaved hmem]
  exact iterSave_of_saved m _ _ _ rfl

/-- Witness for C2 at a concrete state and N = 3. -/
theorem saveLatest_n_calls_one_write_witness :
    iterSave 3
      ({ config := [("memory", .bool true)],
         messages := [{ role := "user", content := "hi" }],
         saved := false }, none, 0) =
      ({ config := [("memory", .bool true)],
         messages := [{ role := "user", content := "hi" }],
         saved := true }, some [{ role := "user", content := "hi" }], 1) :=
  saveLatest_n_calls_one_write _ 3 rfl rfl (by decide)

/-- C9: the first `save_data` call sets the saved flag unconditionally,
even when memory is disabled and no file is written; afterwards no call
on the same manager can write the latest file, whatever its config and
messages have become. -/
theorem saved_flag_set_unconditionally (st : MState)
    (hmem : cfgTruthy st.config "memory" true = false)
    (cfg2 : Config) (msgs2 : List Message) :
    (save_data st).1.saved = true ∧
    (save_data st).2.2 = false ∧
    (save_data st).2.1 = none ∧
    (save_data { config := cfg2, messages := msgs2,
                 saved := (save_data st).1.saved }).2.2 = false ∧
    (save_data { config := cfg2, messages := msgs2,
                 saved := (save_data st).1.saved }).2.1 = none := by
  have h1 : save_data st = ({ st with saved := true }, none, false) := by
    unfold save_data
    rw [hmem]
    simp
  rw [h1]
  refine ⟨rfl, rfl, rfl, ?_, ?_⟩ <;>
    rw [save_data_of_saved _ rfl]

/-- Witness for C9: memory off at the first call, then memory on. -/
theorem saved_flag_set_unconditionally_witness :
    (save_data stMemOff).1.saved = true ∧
    (save_data stMemOff).2.2 = false ∧
    (save_data stMemOff).2.1 = none ∧
    (save_data { config := cfgMemOnly, messages := msgsOne,
                 saved := (save_data stMemOff).1.saved }).2.2 = false ∧
    (save_data { config := cfgMemOnly, messages := msgsOne,
                 saved := (save_data stMemOff).1.saved }).2.1 = none :=
  saved_flag_set_unconditionally stMemOff rfl cfgMemOnly msgsOne

/-- C6: `save_messages` archives the whole pre-call transcript and then
clears the in-memory transcript; when the transcript is empty the
archive filename carries the `None` placeholder instead of failing. -/
theorem archive_and_reset (st : MState) (date : String) :
    (save_messages st date).2.2 = st.messages ∧
    (save_messages st date).1.messages = [] ∧
    (st.messages = [] →
      (save_messages st date).2.1 = date ++ "_None.json") := by
  refine ⟨rfl, rfl, fun h => ?_⟩
  unfold save_messages
  rw [h]
  show date ++ "_" ++ "None" ++ ".json" = date ++ "_None.json"
  rw [String.append_assoc, String.append_assoc]
  congr 1

/-- Witness for C6 at the empty transcript. -/
theorem archive_and_reset_witness :
    (save_messages { config := [], messages := [], saved := false }
        "2026-10-12").2.1 = "2026-10-12_None.json" :=
  (archive_and_reset { config := [], messages := [], saved := false }
      "2026-10-12").2.2 rfl

lemma process_chunk_content (model : String) (acc : TurnAcc) (d : Delta)
    (h : truthyStr d.reasoning_content = true → truthyStr d.content = false) :
    (process_chunk model acc d).content = acc.content ++ d.content.getD "" := by
  unfold process_chunk
  by_cases hr : truthyStr d.reasoning_content = true
  · rw [if_pos hr]
    have hc := h hr
    dsimp only
    cases hc2 : d.content with
    | none => simp
    | some s =>
      rw [hc2] at hc
      unfold truthyStr at hc
      have hs : s = "" := by simpa using hc
      subst hs
      simp
  · rw [if_neg hr]
    by_cases hco : truthyStr d.content = true
    · rw [if_pos hco]
    · rw [if_neg hco]
      cases hc2 : d.content with
      | none => simp
      | some s =>
        rw [hc2] at hco
        unfold truthyStr at hco
        have hs : s = "" := by simpa using hco
        subst hs
        simp

lemma foldl_content (model : String) :
    ∀ (chunks : List Delta) (acc : TurnAcc),
    (∀ d ∈ chunks, truthyStr d.reasoning_content = true →
      truthyStr d.content = false) →
    (chunks.foldl (process_chunk model) acc).content =
      acc.content ++ answer_concat chunks
  | [], acc, _ => by
    simp [answer_concat]
  | d :: rest, acc, h => by
    rw [List.foldl_cons,
      foldl_content model rest _ (fun x hx => h x (List.mem_cons_of_mem d hx)),
      process_chunk_content model acc d (h d (List.mem_cons_self d rest))]
    show _ = acc.content ++ (d.content.getD "" ++ answer_concat rest)
    rw [String.append_assoc]

lemma mem_out_process_chunk (model : String) (acc : TurnAcc) (d : Delta)
    (x : String) (h : x ∈ acc.out) : x ∈ (process_chunk model acc d).out := by
  unfold process_chunk
  dsimp only
  split
  · split <;> simp [h]
  · split
    · split <;> simp [h]
    · exact h

lemma mem_out_foldl (model : String) :
    ∀ (chunks : List Delta) (acc : TurnAcc) (x : String),
    x ∈ acc.out → x ∈ (chunks.foldl (process_chunk model) acc).out
  | [], _, _, h => h
  | d :: rest, acc, x, h =>
    mem_out_foldl model rest _ x (mem_out_process_chunk model acc d x h)

lemma reasoning_frag_mem_out (model : String) (acc : TurnAcc) (d : Delta)
    (h : truthyStr d.reasoning_content = true) :
    d.reasoning_content.getD "" ∈ (process_chunk model acc d).out := by
  unfold process_chunk
  rw [if_pos h]
  dsimp only
  split <;> simp

lemma reasoning_echoed (model : String) :
    ∀ (chunks : List Delta) (acc : TurnAcc) (d : Delta),
    d ∈ chunks → truthyStr d.reasoning_content = true →
    d.reasoning_content.getD "" ∈ (chunks.foldl (process_chunk model) acc).out
  | [], _, _, hmem, _ => absurd hmem (List.not_mem_nil _)
  | c :: rest, acc, d, hmem, ht => by
    rcases List.mem_cons.mp hmem with h | h
    · subst h
      exact mem_out_foldl model rest _ _ (reasoning_frag_mem_out model acc d ht)
    · exact reasoning_echoed model rest _ d h ht

/-- C5: for every streamed turn (each chunk carrying at most one of the
two fragment kinds, as the service contract provides), the assistant
message appended to the transcript is exactly the concatenation, in
stream order, of the answer fragments; every reasoning fragment is
echoed to the console but never enters the persisted message. -/
theorem streamed_turn_appends_answer_only (model : String)
    (msgs : List Message) (user : String) (chunks : List Delta)
    (hexcl : ∀ d ∈ chunks, truthyStr d.reasoning_content = true →
      truthyStr d.content = false) :
    (streamed_turn model msgs user chunks).1 =
      msgs ++ [{ role := "user", content := user },
               { role := "assistant", content := answer_concat chunks }] ∧
    ∀ d ∈ chunks, truthyStr d.reasoning_content = true →
      d.reasoning_content.getD "" ∈ (streamed_turn model msgs user chunks).2.out := by
  have hc : (run_stream model chunks).content = answer_concat chunks := by
    unfold run_stream
    rw [foldl_content model chunks _ hexcl]
    exact String.empty_append _
  constructor
  · unfold streamed_turn
    dsimp only
    rw [hc, List.append_assoc]
    rfl
  · intro d hd ht
    unfold streamed_turn
    dsimp only
    refine List.mem_append_left _ ?_
    unfold run_stream
    exact reasoning_echoed model chunks _ d hd ht

/-- Witness for C5: scenario A, two answer-only chunks. -/
theorem streamed_turn_appends_answer_only_witness :
    (streamed_turn "deepseek-chat" [] "hello" chunksHi).1 =
      [] ++ [{ role := "user", content := "hello" },
             { role := "assistant", content := answer_concat chunksHi }] :=
  (streamed_turn_appends_answer_only "deepseek-chat" [] "hello" chunksHi
    (by decide)).1

/-- C3 (code bug): in streamed mode with `deepseek-reasoner`, the
reasoning-finished marker is guarded by `reasoning_content == ""`, so a
stream of reasoning chunks followed by answer chunks shows no marker at
all, while a stream of answer-only chunks shows the marker before every
answer chunk — never "exactly once, after the reasoning text". -/
theorem reasoning_marker_misfires :
    markerCount (run_stream "deepseek-reasoner" chunksReasonThenAnswer) = 0 ∧
    (run_stream "deepseek-reasoner" chunksReasonThenAnswer).out =
      ["DeepSeek> \n", "Thinking :", "Let me think", "42"] ∧
    markerCount (run_stream "deepseek-reasoner" chunksAnswerOnly) = 2 := by
  refine ⟨?_, ?_, ?_⟩ <;> decide

/-- C7: the signal handler saves and exits with status 0; the uncaught
exception hook saves, forwards the exception info unchanged to the
default hook, and exits with status 1; in either case, combined with the
`atexit` finalizer, at most one physical save occurs. -/
theorem exit_paths_single_save (p : ProcState) (exc : String) :
    (handle_exit p).1 = doSave p ∧
    (handle_exit p).2 = 0 ∧
    (exception_hook exc p).1 = doSave p ∧
    (exception_hook exc p).2.1 = exc ∧
    (exception_hook exc p).2.2 = 1 ∧
    (atexit_finalizer (handle_exit p).1).writes ≤ p.writes + 1 ∧
    (atexit_finalizer (exception_hook exc p).1).writes ≤ p.writes + 1 := by
  refine ⟨rfl, rfl, rfl, rfl, rfl, ?_, ?_⟩ <;>
  · show (atexit_finalizer (doSave p)).writes ≤ p.writes + 1
    unfold atexit_finalizer
    rw [doSave_of_saved _ (doSave_saved p)]
    exact doSave_writes_le p

lemma runStartup_no_latest (fs : FS) (args : Args) (date : String)
    (cfg : Config)
    (hok : validate_config fs.settings = .ok cfg)
    (hmem : cfgTruthy (applyFlags cfg args) "memory" true = true)
    (hlat : fs.latest = none) :
    runStartup fs args date =
      { path := .exceptionExit 1,
        fs := { fs with latest := some [] },
        latestWrites := 1, readLatest := false,
        mstate := some { config := applyFlags cfg args, messages := [],
                         saved := true } } := by
  have hst : save_data { config := applyFlags cfg args, messages := [],
                         saved := false } =
      ({ config := applyFlags cfg args, messages := [], saved := true },
        some [], true) :=
    save_data_first _ rfl hmem
  have hp0 : doSave { st := { config := applyFlags cfg args, messages := [],
                              saved := false },
                      latestFile := none, writes := 0 } =
      { st := { config := applyFlags cfg args, messages := [], saved := true },
        latestFile := some [], writes := 1 } := by
    unfold doSave
    rw [hst]
    rfl
  unfold runStartup
  rw [hok]
  dsimp only
  rw [hmem, if_pos (Eq.refl true), hlat]
  dsimp only
  unfold atexit_finalizer exception_hook
  dsimp only
  rw [hp0, doSave_of_saved _ rfl]

/-- C10: when memory is effectively enabled but `latest.json` is absent,
the startup read raises `FileNotFoundError`, which reaches the global
exception hook; the hook writes the still-empty transcript to the latest
file (creating it) and the process exits with status 1. -/
theorem missing_latest_crashes_and_saves_empty (fs : FS) (args : Args)
    (date : String) (cfg : Config)
    (hok : validate_config fs.settings = .ok cfg)
    (hmem : cfgTruthy (applyFlags cfg args) "memory" true = true)
    (hlat : fs.latest = none) :
    (runStartup fs args date).path = .exceptionExit 1 ∧
    (runStartup fs args date).fs.latest = some [] ∧
    (runStartup fs args date).latestWrites = 1 := by
  rw [runStartup_no_latest fs args date cfg hok hmem hlat]
  exact ⟨rfl, rfl, rfl⟩

/-- Witness for C10: valid config, `-m` passed, no `latest.json`. -/
theorem missing_latest_crashes_and_saves_empty_witness :
    (runStartup fsNoLatest argsMem "2026-10-12").path = .exceptionExit 1 ∧
    (runStartup fsNoLatest argsMem "2026-10-12").fs.latest = some [] ∧
    (runStartup fsNoLatest argsMem "2026-10-12").latestWrites = 1 :=
  missing_latest_crashes_and_saves_empty fsNoLatest argsMem "2026-10-12"
    (setKey cfgFull "stream" (.bool true)) rfl rfl rfl

/-- C1 (code bug): with a configuration whose `memory` flag is true but
no `-m` on the command line, `main` overwrites `config['memory']` with
`args.memory = False` (the `store_true` flag is never `None`), so the
latest transcript is not read at startup, the in-memory transcript stays
empty, the effective memory flag is false, and the exit-path save writes
nothing — contradicting "the -m flag never turns persistence off". -/
theorem memory_config_overridden_without_flag :
    (runStartup fsMemTrue Args.default "2026-10-12").path = .chatLoop ∧
    (runStartup fsMemTrue Args.default "2026-10-12").readLatest = false ∧
    (runStartup fsMemTrue Args.default "2026-10-12").mstate.map
      MState.messages = some [] ∧
    (runStartup fsMemTrue Args.default "2026-10-12").mstate.map
      (fun st => cfgTruthy st.config "memory" true) = some false ∧
    (runStartup fsMemTrue Args.default "2026-10-12").mstate.map
      (fun st => (save_data st).2.2) = some false :=
  ⟨rfl, rfl, rfl, rfl, rfl⟩

/-- C4 (code bug): invoking with `-k mykey` when no configuration file
exists never reaches the `-k` branch: `ConfigManager()` runs at module
level and `sys.exit`s with the config-missing error before `main`, so
no new configuration file is written. -/
theorem key_without_config_exits_before_main :
    runStartup fsAbsent argsKey "2026-10-12" =
      { path := .validationExit .configMissing, fs := fsAbsent,
        latestWrites := 0, readLatest := false, mstate := none } :=
  rfl

/-- C8: configuration loading exits when the file is absent, when it
cannot be parsed as a restricted literal-value declaration, or when
required keys are missing (the error carries exactly the keys absent
from the parsed dict); on success every required key is present and the
derived `stream` key is true; any failure terminates the startup before
any interactive use, touching no file. -/
theorem validate_config_spec (file : SettingsFile) :
    (file = none → validate_config file = .error .configMissing) ∧
    (∀ c, validate_config file = .ok c →
      (∀ k ∈ requiredKeys, (getKey c k).isSome = true) ∧
      getKey c "stream" = some (.bool true)) ∧
    (∀ miss, validate_config file = .error (.configIncomplete miss) →
      miss ≠ [] ∧
      ∀ k, k ∈ miss → k ∈ requiredKeys ∧
        ∀ stmts d, file = some (some stmts) →
          safe_load_config stmts = .ok (.dict d) → getKey d k = none) ∧
    (∀ e, validate_config file = .error e → ∀ fs args date,
      fs.settings = file →
      (runStartup fs args date).path = .validationExit e ∧
      (runStartup fs args date).fs = fs ∧
      (runStartup fs args date).latestWrites = 0 ∧
      (runStartup fs args date).mstate = none) := by
  refine ⟨?_, ?_, ?_, ?_⟩
  · rintro rfl
    rfl
  · intro c hc
    rcases file with _ | (_ | stmts)
    · simp [validate_config] at hc
    · simp [validate_config] at hc
    · unfold validate_config at hc
      dsimp only at hc
      cases hsl : safe_load_config stmts with
      | error u => rw [hsl] at hc; simp at hc
      | ok lit =>
        cases lit with
        | nonDict => rw [hsl] at hc; simp at hc
        | dict d =>
          rw [hsl] at hc
          dsimp only at hc
          by_cases hemp :
            (requiredKeys.filter (fun k => (getKey d k).isNone)).isEmpty = true
          · rw [if_pos hemp] at hc
            simp only [Except.ok.injEq] at hc
            subst hc
            have hall : ∀ k ∈ requiredKeys, ¬ ((getKey d k).isNone = true) := by
              rw [List.isEmpty_iff] at hemp
              exact List.filter_eq_nil_iff.mp hemp
            refine ⟨?_, getKey_setKey_self d "stream" (.bool true)⟩
            intro k hk
            by_cases hks : k = "stream"
            · subst hks
              rw [getKey_setKey_self]
              rfl
            · rw [getKey_setKey_other d "stream" k (.bool true) hks]
              have hno := hall k hk
              cases hgk : getKey d k with
              | none => rw [hgk] at hno; simp at hno
              | some v => rfl
          · rw [if_neg hemp] at hc
            simp at hc
  · intro miss hm
    rcases file with _ | (_ | stmts)
    · simp [validate_config] at hm
    · simp [validate_config] at hm
    · unfold validate_config at hm
      dsimp only at hm
      cases hsl : safe_load_config stmts with
      | error u => rw [hsl] at hm; simp at hm
      | ok lit =>
        cases lit with
        | nonDict => rw [hsl] at hm; simp at hm
        | dict d =>
          rw [hsl] at hm
          dsimp only at hm
          by_cases hemp :
            (requiredKeys.filter (fun k => (getKey d k).isNone)).isEmpty = true
          · rw [if_pos hemp] at hm
            simp at hm
          · rw [if_neg hemp] at hm
            simp only [Except.error.injEq,
              StartupError.configIncomplete.injEq] at hm
            subst hm
            constructor
            · intro hnil
              apply hemp
              rw [hnil]
              rfl
            · intro k hk
              have hk' := List.mem_filter.mp hk
              refine ⟨hk'.1, ?_⟩
              intro stmts' d' hfeq hsl'
              injection hfeq with h1
              injection h1 with h2
              subst h2
              rw [hsl] at hsl'
              simp only [Except.ok.injEq, PyLit.dict.injEq] at hsl'
              subst hsl'
              exact Option.isNone_iff_eq_none.mp hk'.2
  · intro e he fs args date hfs
    unfold runStartup
    rw [hfs, he]
    exact ⟨rfl, rfl, rfl, rfl⟩

/-- Witness for C8 at the absent configuration file. -/
theorem validate_config_spec_witness :
    validate_config none = .error .configMissing :=
  (validate_config_spec none).1 rfl

end DS
